import Mathlib

/-
  Verification development for the opal-card transaction scraper.

  The scraper (scraper.ts) logs into the NSW Opal portal, discovers cards and
  selectable months, extracts per-month ledger entries, reconstructs a running
  balance per entry, and filters the result by a caller-supplied date range.

  This file is a shallow embedding of the deterministic core of that code:
  * strings are Lean `String`s; the handful of JS/regex operations used by the
    source (trim, toLowerCase, substring tests, parseInt, parseFloat on the
    first decimal token) are modelled explicitly below;
  * JS numbers are modelled as rationals (`ℚ`); every numeric value the claims
    touch is a short decimal, where rational arithmetic agrees exactly with
    IEEE doubles for the additions/subtractions performed here;
  * a JS `Date` is an instant; everywhere the scraper compares instants it
    first maps them through Sydney-local `startOf('day')` / `endOf('day')`, so
    instants are modelled as Sydney-local (calendar date, millisecond-of-day)
    pairs ordered lexicographically, and plain calendar dates where only the
    date part can matter;
  * the browser/DOM surface (Playwright) is an external capability: the texts
    it returns are inputs to the embedded functions, and the login control
    flow is modelled by the outcome of the source's `Promise.race`.
-/

set_option maxRecDepth 8000
set_option maxHeartbeats 1600000

/-! ## String primitives used by the source -/

/-- Does `p` occur as a prefix of `l`? (model of JS `String.startsWith` /
regex matching at a fixed position). -/
def startsWithL : List Char → List Char → Bool
  | [], _ => true
  | _ :: _, [] => false
  | p :: ps, c :: cs => p = c && startsWithL ps cs

/-- Does `pat` occur as a contiguous substring of `l`? (model of JS
`String.includes` and of testing a literal-alternation regex). -/
def containsL (pat : List Char) : List Char → Bool
  | [] => startsWithL pat []
  | c :: t => startsWithL pat (c :: t) || containsL pat t

/-- `s.includes(pat)` on strings. -/
def strContains (s pat : String) : Bool := containsL pat.data s.data

/-- JS regex `\s` character class (the whitespace characters relevant to
scraped text). -/
def isJsSpace (c : Char) : Bool :=
  c = ' ' || c = '\t' || c = '\n' || c = '\r' || c = '\x0b' || c = '\x0c'

/-- Numeric value of a digit list (most significant first). -/
def digitsVal (l : List Char) : Nat :=
  l.foldl (fun a c => 10 * a + (c.toNat - 48)) 0

/-- Model of JS `parseInt` on base-10 input: skip leading whitespace, an
optional sign, then a nonempty digit prefix; `none` models `NaN`. -/
def jsParseInt (s : List Char) : Option Int :=
  let l := s.dropWhile isJsSpace
  let signAndRest : Bool × List Char :=
    match l with
    | '-' :: t => (true, t)
    | '+' :: t => (false, t)
    | t => (false, t)
  let ds := signAndRest.2.takeWhile Char.isDigit
  if ds.isEmpty then none
  else some ((if signAndRest.1 then -1 else 1) * (digitsVal ds : Int))

/-- JS `String.prototype.trim` (drop whitespace at both ends). -/
def jsTrimL (l : List Char) : List Char :=
  ((l.dropWhile isJsSpace).reverse.dropWhile isJsSpace).reverse

/-- JS `String.prototype.toLowerCase` on the ASCII texts at hand. -/
def toLowerL (l : List Char) : List Char := l.map Char.toLower

/-- JS `split(":")`. -/
def splitOnColonL : List Char → List (List Char)
  | [] => [[]]
  | c :: t =>
    let r := splitOnColonL t
    if c = ':' then [] :: r
    else
      match r with
      | h :: t2 => (c :: h) :: t2
      | [] => [[c]]

/-! ## Calendar dates and Sydney-local instants -/

/-- A calendar date (month is 1-based). -/
structure CalDate where
  year : Nat
  month : Nat
  day : Nat
deriving DecidableEq, Repr

/-- Strict calendar order; for same-zone luxon `DateTime`s at the same
time-of-day this is exactly the order of their timestamps. -/
def dateLT (a b : CalDate) : Bool :=
  a.year < b.year ||
    (a.year = b.year && (a.month < b.month || (a.month = b.month && a.day < b.day)))

def dateLE (a b : CalDate) : Bool := dateLT a b || a = b

/-- A Sydney-local instant: calendar date plus millisecond of day.  All the
instants the scraper compares live in the one zone and sit against a
start-of-day or end-of-day boundary, where lexicographic order coincides with
the order of the underlying timestamps. -/
def dtLE (x y : CalDate × Nat) : Bool :=
  dateLT x.1 y.1 || (x.1 = y.1 && x.2 ≤ y.2)

def isLeap (y : Nat) : Bool := (y % 4 = 0 && y % 100 ≠ 0) || y % 400 = 0

def daysInMonth (y m : Nat) : Nat :=
  if m = 1 || m = 3 || m = 5 || m = 7 || m = 8 || m = 10 || m = 12 then 31
  else if m = 4 || m = 6 || m = 9 || m = 11 then 30
  else if m = 2 then (if isLeap y then 29 else 28)
  else 0

def digitVal (c : Char) : Nat := c.toNat - 48

/-- Model of luxon `DateTime.fromFormat(s, 'MM-dd-yyyy', Sydney)`: exactly
two month digits, two day digits, four year digits (the scraper only ever
produces 4-digit years), and the triple must be a real calendar date;
anything else yields an invalid `DateTime`, modelled as `none`. -/
def parseMMddyyyy (s : String) : Option CalDate :=
  match s.data with
  | [m1, m2, '-', d1, d2, '-', y1, y2, y3, y4] =>
    if m1.isDigit && m2.isDigit && d1.isDigit && d2.isDigit &&
        y1.isDigit && y2.isDigit && y3.isDigit && y4.isDigit then
      let mth := 10 * digitVal m1 + digitVal m2
      let day := 10 * digitVal d1 + digitVal d2
      let yr := 1000 * digitVal y1 + 100 * digitVal y2 + 10 * digitVal y3 + digitVal y4
      if 1 ≤ mth && mth ≤ 12 && 1 ≤ day && day ≤ daysInMonth yr mth then
        some ⟨yr, mth, day⟩
      else none
    else none
  | _ => none

/-! ## The ledger entry record (the object literal pushed by getTransactions) -/

structure LedgerEntry where
  transactionDate : String
  time_local : Option String
  time_utc : Option String
  quantity : ℚ
  currency : String
  accountId : String
  mode : Option String
  description : String
  tap_on_location : String
  tap_off_location : Option String
  status : String
  bankImportedBalance : Option String
deriving DecidableEq, Repr

/-! ## filterByDateRange (scraper.ts lines 171-200) -/

/-- Embedding of `filterByDateRange`.  Bounds are Sydney-local instants
(date, msOfDay); the source maps the start bound through `startOf('day')`
(ms 0) and the end bound through `endOf('day')` (ms 86399999), and parses
`tx.transactionDate` with format `MM-dd-yyyy` (midnight), dropping entries
whose date is invalid. -/
def filterByDateRange (results : List LedgerEntry)
    (startDate endDate : Option (CalDate × Nat)) : List LedgerEntry :=
  match startDate, endDate with
  | none, none => results
  | sD, eD =>
    let startDT : Option (CalDate × Nat) := sD.map (fun d => (d.1, 0))
    let endDT : Option (CalDate × Nat) := eD.map (fun d => (d.1, 86399999))
    results.filter fun tx =>
      match parseMMddyyyy tx.transactionDate with
      | none => false
      | some dd =>
        match startDT, endDT with
        | none, some e => dtLE (dd, 0) e
        | some s, none => dtLE s (dd, 0)
        | some s, some e => dtLE s (dd, 0) && dtLE (dd, 0) e
        | none, none => true

/-! ## parseAmount (scraper.ts lines 301-318) -/

/-- Strip the leading JS-whitespace run (the `\s*` pieces of the top-up
regex). -/
def dropSpacesL (l : List Char) : List Char := l.dropWhile isJsSpace

/-- Match of the regex branch `top\s*-?\s*up` at the head of `l`. -/
def topUpAt (l : List Char) : Bool :=
  if startsWithL "top".data l then
    let r1 := dropSpacesL (l.drop 3)
    let r2 := match r1 with
      | '-' :: t => dropSpacesL t
      | t => t
    startsWithL "up".data r2
  else false

/-- One position of the alternation
`top\s*-?\s*up|topup|recharge|credited|add funds|load|load funds|added`
(already-lowercased input, so the `/i` flag is immaterial). -/
def topUpAltAt (l : List Char) : Bool :=
  topUpAt l || startsWithL "topup".data l || startsWithL "recharge".data l ||
    startsWithL "credited".data l || startsWithL "add funds".data l ||
    startsWithL "load".data l || startsWithL "load funds".data l ||
    startsWithL "added".data l

/-- `regex.test`: does the alternation match anywhere in the text? -/
def topUpAnywhere : List Char → Bool
  | [] => topUpAltAt []
  | c :: t => topUpAltAt (c :: t) || topUpAnywhere t

/-- `text.replace(/[$,]/g, "")`. -/
def stripDollarComma (l : List Char) : List Char :=
  l.filter fun c => !(c = '$' || c = ',')

/-- Value of a matched numeric token `intD ("." fracD)?` as a rational
(`parseFloat` of the token; exact for the short decimals at hand).  Built
with `mkRat` so that it evaluates: the Batteries field operations on `ℚ`
are `@[irreducible]`. -/
def numTokenVal (intD fracD : List Char) : ℚ :=
  mkRat (digitsVal intD * 10 ^ fracD.length + digitsVal fracD : Int) (10 ^ fracD.length)

/-- Token value at a position that starts with a digit: greedy digits,
optionally `.` followed by at least one digit (regex `\d+(?:\.\d+)?`). -/
def numTokenAt (l : List Char) : ℚ :=
  let intD := l.takeWhile Char.isDigit
  let rest := l.dropWhile Char.isDigit
  match rest with
  | '.' :: r2 =>
    if (r2.headD ' ').isDigit then numTokenVal intD (r2.takeWhile Char.isDigit)
    else numTokenVal intD []
  | _ => numTokenVal intD []

/-- Leftmost match of `[+-]?\d+(?:\.\d+)?` in `l`, as its `parseFloat` value:
model of `text.match(...)` followed by `parseFloat(numericMatch[0])`. -/
def firstAmount : List Char → Option ℚ
  | [] => none
  | c :: t =>
    if c.isDigit then some (numTokenAt (c :: t))
    else if (c = '+' || c = '-') && (t.headD ' ').isDigit then
      some (if c = '-' then -numTokenAt t else numTokenAt t)
    else firstAmount t

/-- The lower-cased context `(text + " " + (description || "")).trim().toLowerCase()`. -/
def amountCtx (raw description : String) : List Char :=
  toLowerL (jsTrimL (jsTrimL raw.data ++ ' ' :: description.data))

/-- The source's top-up test: the keyword regex on the context, or the context
contains `"top"`. -/
def isTopUpText (raw description : String) : Bool :=
  topUpAnywhere (amountCtx raw description) ||
    containsL "top".data (amountCtx raw description)

/-- `Math.abs` on an exact rational. -/
def ratAbs (q : ℚ) : ℚ := if q < 0 then -q else q

/-- Magnitude of the first numeric token of the raw amount text after
stripping `$` and `,` (`0` when no token parses; `Math.abs` applied as in the
source). -/
def amountMagnitude (raw : String) : ℚ :=
  ratAbs ((firstAmount (stripDollarComma (jsTrimL raw.data))).getD 0)

/-- Embedding of `parseAmount`: returns `{quantity, currency}`. -/
def parseAmount (raw description : String) : ℚ × String :=
  if isTopUpText raw description then (amountMagnitude raw, "AUD")
  else (-amountMagnitude raw, "AUD")

/-- Exact rational subtraction, written out through `mkRat` so that it
evaluates (`Rat.sub` is `@[irreducible]`); `qSub_eq_sub` below identifies it
with the standard subtraction on `ℚ`. -/
def qSub (a b : ℚ) : ℚ :=
  mkRat (a.num * (b.den : Int) - b.num * (a.den : Int)) (a.den * b.den)

/-! ## convertTimes (scraper.ts lines 337-349)

The block-header date arrives from `parseOpalDate` as `{day, month, year}`
with a 0-based month; `convertTimes` combines it with the item's `HH:mm`
text in the Sydney zone and also formats the UTC equivalent. -/

structure OpalDate where
  day : Nat
  month : Nat
  year : Nat
deriving DecidableEq, Repr

/-- The source's `pad`: `n.toString().padStart(2, "0")`. -/
def pad (n : Nat) : String := if n < 10 then "0" ++ toString n else toString n

/-- Day serial number of a calendar date (days since 0000-03-01), the
days-from-civil algorithm specialised to nonnegative years. -/
def serialFromCivil (y m d : Nat) : Nat :=
  let yAdj := if m ≤ 2 then y - 1 else y
  let era := yAdj / 400
  let yoe := yAdj % 400
  let mp := if m > 2 then m - 3 else m + 9
  let doy := (153 * mp + 2) / 5 + d - 1
  let doe := yoe * 365 + yoe / 4 - yoe / 100 + doy
  era * 146097 + doe

/-- Inverse of `serialFromCivil` (civil-from-days). -/
def civilFromSerial (z : Nat) : Nat × Nat × Nat :=
  let era := z / 146097
  let doe := z % 146097
  let yoe := (doe - doe / 1460 + doe / 36524 - doe / 146096) / 365
  let y := yoe + era * 400
  let doy := doe - (365 * yoe + yoe / 4 - yoe / 100)
  let mp := (5 * doy + 2) / 153
  let d := doy - (153 * mp + 2) / 5 + 1
  let m := if mp < 10 then mp + 3 else mp - 9
  (if m ≤ 2 then y + 1 else y, m, d)

/-- Day of week, Sunday = 0 (1970-01-01, serial 719468, was a Thursday). -/
def dowOf (y m d : Nat) : Nat := (serialFromCivil y m d + 3) % 7

/-- Day-of-month of the first Sunday of the given month. -/
def firstSundayDayOf (y m : Nat) : Nat := (7 - dowOf y m 1) % 7 + 1

/-- UTC offset of Australia/Sydney in minutes for a local wall-clock time,
per the NSW daylight-saving rule in force since 2008: AEDT (UTC+11) from the
first Sunday of October 02:00 to the first Sunday of April 03:00, else AEST
(UTC+10).  Wall times made ambiguous or skipped by a transition are given the
daylight offset, matching luxon's earlier-offset preference. -/
def sydneyOffsetMinutes (y m d hh : Nat) : Nat :=
  if 5 ≤ m && m ≤ 9 then 600
  else if m ≤ 3 || 11 ≤ m then 660
  else if m = 10 then
    (if d > firstSundayDayOf y 10 || (d = firstSundayDayOf y 10 && 2 ≤ hh) then 660 else 600)
  else
    (if d < firstSundayDayOf y 4 || (d = firstSundayDayOf y 4 && hh < 3) then 660 else 600)

structure CivilMin where
  year : Nat
  month : Nat
  day : Nat
  hour : Nat
  minute : Nat
deriving DecidableEq, Repr

/-- Minute serial of a Sydney wall-clock time converted to UTC
(`local.toUTC()`). -/
def sydneyLocalToUtcMinutes (y m d hh mm : Nat) : Nat :=
  serialFromCivil y m d * 1440 + hh * 60 + mm - sydneyOffsetMinutes y m d hh

/-- Split a minute serial back into civil fields. -/
def civilMinutes (t : Nat) : CivilMin :=
  let serial := t / 1440
  let rem := t % 1440
  let ymd := civilFromSerial serial
  ⟨ymd.1, ymd.2.1, ymd.2.2, rem / 60, rem % 60⟩

/-- The two formatted timestamps for a parsed, in-range time: the local
string echoes the wall-clock fields handed to `DateTime.fromObject`, the UTC
string formats `local.toUTC()`; both use the source's
`MM-dd-yyyy HH:mm` template with `pad`. -/
def buildTimes (dateBase : OpalDate) (hh mm : Nat) : Option String × Option String :=
  let localStr := pad (dateBase.month + 1) ++ "-" ++ pad dateBase.day ++ "-" ++
    toString dateBase.year ++ " " ++ pad hh ++ ":" ++ pad mm
  let u := civilMinutes (sydneyLocalToUtcMinutes dateBase.year (dateBase.month + 1) dateBase.day hh mm)
  let utcStr := pad u.month ++ "-" ++ pad u.day ++ "-" ++ toString u.year ++ " " ++
    pad u.hour ++ ":" ++ pad u.minute
  (some localStr, some utcStr)

/-- Are the wall-clock fields ones luxon's `fromObject` accepts as a valid
`DateTime`?  (Month 1-12, real day of month, hour 0-23, minute 0-59.) -/
def validLocalFields (dateBase : OpalDate) (hh mm : Int) : Bool :=
  dateBase.month + 1 ≤ 12 && 1 ≤ dateBase.day &&
    dateBase.day ≤ daysInMonth dateBase.year (dateBase.month + 1) &&
    0 ≤ hh && hh ≤ 23 && 0 ≤ mm && mm ≤ 59

/-- The strings the source's template produces from an invalid luxon
`DateTime`, whose numeric accessors are all `NaN`. -/
def invalidDTStr : String := "NaN-NaN-NaN NaN:NaN"

/-- Embedding of `convertTimes`: empty time text short-circuits to two nulls;
otherwise the text is split on `":"` and destructured into `hh` and `mm`
through `parseInt`.  An unparsable piece is `NaN`, making the luxon
`DateTime` invalid (modelled by the `NaN` strings); a missing second piece is
`undefined`, which luxon's `fromObject` defaults to minute 0.  A valid
wall-clock time is formatted locally and in UTC. -/
def convertTimes (dateBase : OpalDate) (timeStr : String) : Option String × Option String :=
  if timeStr = "" then (none, none)
  else
    let parts := splitOnColonL timeStr.data
    match jsParseInt (parts.headD []), parts.drop 1 with
    | some hh, [] =>
      if validLocalFields dateBase hh 0 then buildTimes dateBase hh.toNat 0
      else (some invalidDTStr, some invalidDTStr)
    | some hh, s :: _ =>
      match jsParseInt s with
      | some mm =>
        if validLocalFields dateBase hh mm then buildTimes dateBase hh.toNat mm.toNat
        else (some invalidDTStr, some invalidDTStr)
      | none => (some invalidDTStr, some invalidDTStr)
    | none, _ => (some invalidDTStr, some invalidDTStr)

/-! ## toFixed(2) on the running balance -/

/-- The digits of `toFixed(2)` on a nonnegative exact rational: the integer
closest to `r * 100` — namely `⌊r * 100 + 1/2⌋`, which resolves ties toward
the larger candidate as the JS spec's "pick the larger n" does — split
around a decimal point. -/
def toFixed2n (r : ℚ) : String :=
  let n := ((r.num * 200 + (r.den : Int)).ediv (2 * (r.den : Int))).toNat
  toString (n / 100) ++ "." ++ pad (n % 100)

/-- Model of `Number.prototype.toFixed(2)` on an exactly represented
rational: a leading `-` for negative values, then the digits of the absolute
value. -/
def toFixed2 (q : ℚ) : String :=
  if q < 0 then "-" ++ toFixed2n (-q) else toFixed2n q

/-! ## The per-item extraction loop (scraper.ts lines 531-565) -/

/-- The raw texts the DOM capability returns for one `.card-activity-item`. -/
structure RawItem where
  timeText : String
  description : String
  amountText : String
  mode : Option String
  fromText : String
  toText : String
deriving DecidableEq, Repr

/-- Embedding of the inner item loop of `getTransactions`: for each item,
parse the amount and times, stamp `bankImportedBalance` with the current
running balance (unless suppressed or unknown), then subtract the signed
quantity from the running balance before the next (older) item. -/
def processItems (disable : Bool) (transactionDate : String) (parsedDate : OpalDate)
    (accountId : String) : Option ℚ → List RawItem → List LedgerEntry
  | _, [] => []
  | rb, it :: rest =>
    let pa := parseAmount it.amountText it.description
    let times := convertTimes parsedDate it.timeText
    let bib : Option String := if disable then none else rb.map toFixed2
    let rb' : Option ℚ := match rb with
      | some b => some (qSub b pa.1)
      | none => none
    { transactionDate := transactionDate
      time_local := times.1
      time_utc := times.2
      quantity := pa.1
      currency := pa.2
      accountId := accountId
      mode := it.mode
      description := it.description
      tap_on_location := it.fromText
      tap_off_location := if it.fromText ≠ "" then some it.toText else none
      status := if pa.1 ≠ 0 then "posted" else "pending"
      bankImportedBalance := bib } :: processItems disable transactionDate parsedDate accountId rb' rest

/-! ## login (scraper.ts lines 205-273)

After submitting the form the source races a bounded wait for the
authenticated landing URL against a bounded wait for an inline error
element; the first promise to settle decides the branch.  A timed-out wait
settles with a `no-success` / `no-error` marker rather than rejecting. -/

/-- The value `Promise.race([successPromise, errorPromise])` produced.
`errorEl t` carries the element's `innerText()`; `t = none` models that read
throwing, which the source swallows, leaving the text empty. -/
inductive RaceResult where
  | success
  | errorEl (innerText : Option String)
  | noSuccess
  | noError
deriving DecidableEq, Repr

/-- What the login tail does: the console line it prints and whether it
returns the context (`ok`) or throws `new Error(m)` (`error m`). -/
structure LoginOutcome where
  consoleMessage : String
  result : Except String Unit
deriving Repr

/-- The URL fragment identifying the authenticated landing page. -/
def landingUrlPart : String := "/opal-view/#/account/cards"

/-- Test of `/invalid|incorrect|wrong|not match|password|username|email/` on
the lower-cased error text. -/
def loginErrorKeyword (s : String) : Bool :=
  strContains s "invalid" || strContains s "incorrect" || strContains s "wrong" ||
    strContains s "not match" || strContains s "password" ||
    strContains s "username" || strContains s "email"

/-- The fallback taken when the race produced neither success nor an error
element: check the current URL once more, else fail generically. -/
def loginFallback (currentUrl : String) : LoginOutcome :=
  if strContains currentUrl landingUrlPart then ⟨"Login successful", .ok ()⟩
  else ⟨"Login failed: timeout or unexpected response", .error "LoginFailed"⟩

/-- Embedding of the outcome classification of `login` (lines 235-266). -/
def loginOutcome (res : RaceResult) (currentUrl : String) : LoginOutcome :=
  match res with
  | .success => ⟨"Login successful", .ok ()⟩
  | .errorEl t =>
    let text : String := ⟨jsTrimL (t.getD "").data⟩
    if loginErrorKeyword ⟨toLowerL text.data⟩ then
      ⟨"Login failed: Invalid username or password", .error "InvalidCredentials"⟩
    else if text ≠ "" then ⟨"Login failed: " ++ text, .error "InvalidCredentials"⟩
    else ⟨"Login failed: unknown error", .error "InvalidCredentials"⟩
  | .noSuccess => loginFallback currentUrl
  | .noError => loginFallback currentUrl

/-! ## Month-window computation (scraper.ts lines 373-495)

A discovered period option, as parsed from the month selector's labels
(month is 0-based as in the source). -/

structure PeriodOpt where
  label : String
  value : Option String
  month : Nat
  year : Nat
deriving DecidableEq, Repr

/-- A (month, year) pair, month 0-based. -/
structure MY where
  month : Nat
  year : Nat
deriving DecidableEq, Repr

/-- The source's `monthCmp` comparator. -/
def monthCmp (a b : MY) : Int :=
  if a.year ≠ b.year then (a.year : Int) - (b.year : Int)
  else (a.month : Int) - (b.month : Int)

/-- Stable insertion of `x` into a run sorted by the boolean relation `le`:
model of what `Array.prototype.sort` (stable, ES2019) does with a consistent
comparator. -/
def insertB (le : α → α → Bool) (x : α) : List α → List α
  | [] => [x]
  | y :: ys => if le x y then x :: y :: ys else y :: insertB le x ys

/-- Stable sort by the boolean relation `le`. -/
def sortByB (le : α → α → Bool) : List α → List α
  | [] => []
  | x :: xs => insertB le x (sortByB le xs)

def periodMY (p : PeriodOpt) : MY := ⟨p.month, p.year⟩

/-- `monthsParsed.sort((a, b) => monthCmp(a, b))` — ascending. -/
def sortAscP (l : List PeriodOpt) : List PeriodOpt :=
  sortByB (fun a b => monthCmp (periodMY a) (periodMY b) ≤ 0) l

/-- `monthsToUse.sort((a, b) => monthCmp(b, a))` — descending. -/
def sortDescP (l : List PeriodOpt) : List PeriodOpt :=
  sortByB (fun a b => monthCmp (periodMY b) (periodMY a) ≤ 0) l

/-- `{month: dt.month - 1, year: dt.year}` for a Sydney calendar date. -/
def myOfDate (d : CalDate) : MY := ⟨d.month - 1, d.year⟩

/-- First day of a discovered period (Sydney midnight). -/
def firstDayOf (p : PeriodOpt) : CalDate := ⟨p.year, p.month + 1, 1⟩

/-- Lines 417-418: the ascending-sorted discovered periods. -/
def cwMonthsParsed (monthsOptions : List PeriodOpt) : List PeriodOpt :=
  sortAscP monthsOptions

/-- Lines 423-428: a missing caller start defaults to the first day of the
earliest discovered period (when any period was discovered). -/
def cwStartDate1 (monthsOptions : List PeriodOpt) (startDate0 : Option CalDate) :
    Option CalDate :=
  match startDate0, cwMonthsParsed monthsOptions with
  | none, earliest :: _ => some (firstDayOf earliest)
  | s, _ => s

/-- Lines 429-432: a missing caller end defaults to today (Sydney); after
this the end date is always present, so it is carried bare. -/
def cwEndDate (endDate0 : Option CalDate) (today : CalDate) : CalDate :=
  endDate0.getD today

/-- Lines 446-457: a start date earlier than the earliest discovered period's
first day is clamped up to that first day. -/
def cwStartDate2 (monthsOptions : List PeriodOpt) (startDate0 : Option CalDate) :
    Option CalDate :=
  match cwStartDate1 monthsOptions startDate0, cwMonthsParsed monthsOptions with
  | some sd, earliest :: _ =>
    some (if dateLT sd (firstDayOf earliest) then firstDayOf earliest else sd)
  | s, _ => s

/-- The start (month, year) pair after defaulting and clamping
(lines 435-437 recomputed at 454-456). -/
def cwStartMY2 (monthsOptions : List PeriodOpt) (startDate0 : Option CalDate) :
    Option MY :=
  (cwStartDate2 monthsOptions startDate0).map myOfDate

/-- Lines 459-469: a still-missing start pair is filled from the earliest
discovered period.  (It can still be missing only when no caller start was
given and no period was discovered; the end pair is always present by then,
so the source's two fill branches coincide on this one case.) -/
def cwStartMY (monthsOptions : List PeriodOpt) (startDate0 : Option CalDate) :
    Option MY :=
  match cwStartMY2 monthsOptions startDate0, cwMonthsParsed monthsOptions with
  | none, m :: _ => some (periodMY m)
  | s, _ => s

/-- The end (month, year) pair (lines 439-442; never missing after the end
date was defaulted, so line 468's fill never fires). -/
def cwEndMY (endDate0 : Option CalDate) (today : CalDate) : MY :=
  myOfDate (cwEndDate endDate0 today)

/-- Lines 474-481: suppress `bankImportedBalance` when the effective end
date's instant precedes today's Sydney midnight — equivalently, when its
Sydney calendar day is strictly before today's. -/
def cwDisable (endDate0 : Option CalDate) (today : CalDate) : Bool :=
  dateLT (cwEndDate endDate0 today) today

/-- Lines 483-495: with both (month, year) pairs present, keep the discovered
periods inside the inclusive range and iterate them descending; otherwise
fall back to all discovered periods, descending. -/
def cwMonthsToUse (monthsOptions : List PeriodOpt) (startDate0 endDate0 : Option CalDate)
    (today : CalDate) : List PeriodOpt :=
  match cwStartMY monthsOptions startDate0 with
  | some s =>
    sortDescP ((cwMonthsParsed monthsOptions).filter fun m =>
      decide (monthCmp s (periodMY m) ≤ 0) &&
        decide (monthCmp (periodMY m) (cwEndMY endDate0 today) ≤ 0))
  | none => sortDescP (cwMonthsParsed monthsOptions)

/-- The values the window-computation block of `getTransactions` leaves in
scope for the extraction loop. -/
structure WindowResult where
  startDate : Option CalDate
  endDate : CalDate
  startMY : Option MY
  endMY : Option MY
  disableBankImported : Bool
  monthsToUse : List PeriodOpt
deriving DecidableEq, Repr

/-- Embedding of the window-computation block of `getTransactions`
(lines 405-495), taking the discovered period options, the caller's optional
start/end Sydney calendar dates, and today's Sydney date. -/
def computeWindow (monthsOptions : List PeriodOpt) (startDate0 endDate0 : Option CalDate)
    (today : CalDate) : WindowResult :=
  { startDate := cwStartDate2 monthsOptions startDate0
    endDate := cwEndDate endDate0 today
    startMY := cwStartMY monthsOptions startDate0
    endMY := some (cwEndMY endDate0 today)
    disableBankImported := cwDisable endDate0 today
    monthsToUse := cwMonthsToUse monthsOptions startDate0 endDate0 today }

/-- The sequence of `bankImportedBalance` stamps produced by walking a known
balance backward over signed quantities: stamp the current balance, then
subtract the quantity for the next (older) entry. -/
def balanceTrace : ℚ → List ℚ → List (Option String)
  | _, [] => []
  | b, q :: qs => some (toFixed2 b) :: balanceTrace (qSub b q) qs

/-! ## Supporting lemmas -/

theorem mem_insertB {α : Type} (le : α → α → Bool) (x a : α) (l : List α) :
    a ∈ insertB le x l ↔ a = x ∨ a ∈ l := by
  induction l with
  | nil => simp [insertB]
  | cons y ys ih =>
    simp only [insertB]
    split
    · simp
    · simp only [List.mem_cons, ih]
      tauto

theorem mem_sortByB {α : Type} (le : α → α → Bool) (a : α) (l : List α) :
    a ∈ sortByB le l ↔ a ∈ l := by
  induction l with
  | nil => simp [sortByB]
  | cons x xs ih => simp [sortByB, mem_insertB, ih]

theorem dtLE_start_tx (s d : CalDate) : dtLE (s, 0) (d, 0) = dateLE s d := by
  simp [dtLE, dateLE]

theorem dtLE_tx_end (d e : CalDate) : dtLE (d, 0) (e, 86399999) = dateLE d e := by
  simp [dtLE, dateLE]


/-- The date-guarded filter predicate is true exactly on a successfully
parsed date satisfying the bound test. -/
theorem matchPred_eq_true (f : CalDate → Bool) (tx : LedgerEntry) :
    ((match parseMMddyyyy tx.transactionDate with
      | none => false
      | some dd => f dd) = true) ↔
      ∃ d, parseMMddyyyy tx.transactionDate = some d ∧ f d = true := by
  cases hd : parseMMddyyyy tx.transactionDate <;> simp [hd]

/-- C6: the date-range filter is pure with four-case semantics on calendar
dates only: both bounds absent returns the entries unchanged; an end bound
keeps exactly the entries whose parsed calendar date is ≤ the end date; a
start bound keeps exactly those ≥ the start date; both bounds keep exactly
those in the inclusive range — in every case ignoring the bounds'
time-of-day components and using the entry's own recorded
`transactionDate`. -/
theorem c6_filter_four_cases :
    (∀ E, filterByDateRange E none none = E) ∧
    (∀ E e tx, tx ∈ filterByDateRange E none (some e) ↔
      tx ∈ E ∧ ∃ d, parseMMddyyyy tx.transactionDate = some d ∧ dateLE d e.1 = true) ∧
    (∀ E s tx, tx ∈ filterByDateRange E (some s) none ↔
      tx ∈ E ∧ ∃ d, parseMMddyyyy tx.transactionDate = some d ∧ dateLE s.1 d = true) ∧
    (∀ E s e tx, tx ∈ filterByDateRange E (some s) (some e) ↔
      tx ∈ E ∧ ∃ d, parseMMddyyyy tx.transactionDate = some d ∧
        dateLE s.1 d = true ∧ dateLE d e.1 = true) := by
  refine ⟨fun E => rfl, fun E e tx => ?_, fun E s tx => ?_, fun E s e tx => ?_⟩
  · have hrw : filterByDateRange E none (some e) = E.filter (fun tx =>
        match parseMMddyyyy tx.transactionDate with
        | none => false
        | some dd => dtLE (dd, 0) (e.1, 86399999)) := rfl
    rw [hrw, List.mem_filter, matchPred_eq_true]
    simp only [dtLE_tx_end]
  · have hrw : filterByDateRange E (some s) none = E.filter (fun tx =>
        match parseMMddyyyy tx.transactionDate with
        | none => false
        | some dd => dtLE (s.1, 0) (dd, 0)) := rfl
    rw [hrw, List.mem_filter, matchPred_eq_true]
    simp only [dtLE_start_tx]
  · have hrw : filterByDateRange E (some s) (some e) = E.filter (fun tx =>
        match parseMMddyyyy tx.transactionDate with
        | none => false
        | some dd => dtLE (s.1, 0) (dd, 0) && dtLE (dd, 0) (e.1, 86399999)) := rfl
    rw [hrw, List.mem_filter, matchPred_eq_true]
    simp only [Bool.and_eq_true, dtLE_start_tx, dtLE_tx_end]

/-- C6 witness: a concrete entry dated 01-15-2024 is kept by an end-only
filter bounded at 02-01-2024 (with a nonzero time-of-day on the bound). -/
theorem c6_filter_four_cases_witness :
    (⟨"01-15-2024", none, none, 0, "AUD", "a", none, "", "", none, "pending", none⟩ :
      LedgerEntry) ∈
      filterByDateRange
        [⟨"01-15-2024", none, none, 0, "AUD", "a", none, "", "", none, "pending", none⟩]
        none (some (⟨2024, 2, 1⟩, 555)) :=
  (c6_filter_four_cases.2.1 _ (⟨2024, 2, 1⟩, 555) _).mpr
    ⟨by decide, ⟨2024, 1, 15⟩, by decide, by decide⟩

/-- C9: when at least one bound is present, an entry whose recorded
`transactionDate` does not parse as a valid `MM-dd-yyyy` calendar date is
excluded from the filter's result, while with both bounds null it is
returned unchanged. -/
theorem c9_invalid_date_excluded (E : List LedgerEntry)
    (s e : Option (CalDate × Nat)) (tx : LedgerEntry)
    (hbad : parseMMddyyyy tx.transactionDate = none) :
    ((s.isSome ∨ e.isSome) → tx ∉ filterByDateRange E s e) ∧
      filterByDateRange E none none = E := by
  refine ⟨fun hse hmem => ?_, rfl⟩
  have hfalse : ∀ (f : CalDate → Bool),
      (match parseMMddyyyy tx.transactionDate with
        | none => false
        | some dd => f dd) = false := by
    intro f; rw [hbad]
  match s, e with
  | none, none => simp at hse
  | none, some e' =>
    have hrw : filterByDateRange E none (some e') = E.filter (fun tx =>
        match parseMMddyyyy tx.transactionDate with
        | none => false
        | some dd => dtLE (dd, 0) (e'.1, 86399999)) := rfl
    rw [hrw, List.mem_filter] at hmem
    rw [hfalse] at hmem
    exact absurd hmem.2 (by simp)
  | some s', none =>
    have hrw : filterByDateRange E (some s') none = E.filter (fun tx =>
        match parseMMddyyyy tx.transactionDate with
        | none => false
        | some dd => dtLE (s'.1, 0) (dd, 0)) := rfl
    rw [hrw, List.mem_filter] at hmem
    rw [hfalse] at hmem
    exact absurd hmem.2 (by simp)
  | some s', some e' =>
    have hrw : filterByDateRange E (some s') (some e') = E.filter (fun tx =>
        match parseMMddyyyy tx.transactionDate with
        | none => false
        | some dd => dtLE (s'.1, 0) (dd, 0) && dtLE (dd, 0) (e'.1, 86399999)) := rfl
    rw [hrw, List.mem_filter] at hmem
    rw [hfalse] at hmem
    exact absurd hmem.2 (by simp)

/-- C9 witness: an entry dated "garbage" is dropped by a start-only filter
yet returned unchanged by the unbounded filter. -/
theorem c9_invalid_date_excluded_witness :
    ((⟨"garbage", none, none, 0, "AUD", "a", none, "", "", none, "pending", none⟩ :
        LedgerEntry) ∉
      filterByDateRange
        [⟨"garbage", none, none, 0, "AUD", "a", none, "", "", none, "pending", none⟩]
        (some (⟨2024, 1, 1⟩, 0)) none) ∧
      filterByDateRange
        [⟨"garbage", none, none, 0, "AUD", "a", none, "", "", none, "pending", none⟩]
        none none =
        [⟨"garbage", none, none, 0, "AUD", "a", none, "", "", none, "pending", none⟩] :=
  ⟨(c9_invalid_date_excluded
      [⟨"garbage", none, none, 0, "AUD", "a", none, "", "", none, "pending", none⟩]
      (some (⟨2024, 1, 1⟩, 0)) none
      ⟨"garbage", none, none, 0, "AUD", "a", none, "", "", none, "pending", none⟩
      (by decide)).1 (Or.inl rfl),
    (c9_invalid_date_excluded
      [⟨"garbage", none, none, 0, "AUD", "a", none, "", "", none, "pending", none⟩]
      (some (⟨2024, 1, 1⟩, 0)) none
      ⟨"garbage", none, none, 0, "AUD", "a", none, "", "", none, "pending", none⟩
      (by decide)).2⟩

/-- `ratAbs` is nonnegative. -/
theorem ratAbs_nonneg (q : ℚ) : 0 ≤ ratAbs q := by
  by_cases h : q < 0
  · rw [ratAbs, if_pos h]; linarith
  · rw [ratAbs, if_neg h]; exact not_lt.mp h

/-- `ratAbs` is the standard absolute value on `ℚ`. -/
theorem ratAbs_eq_abs (q : ℚ) : ratAbs q = |q| := by
  by_cases h : q < 0
  · rw [ratAbs, if_pos h, abs_of_neg h]
  · rw [ratAbs, if_neg h, abs_of_nonneg (not_lt.mp h)]

/-- `qSub` is the standard subtraction on `ℚ`. -/
theorem qSub_eq_sub (a b : ℚ) : qSub a b = a - b := by
  rw [qSub, Rat.mkRat_eq_divInt, Rat.divInt_eq_div]
  have ha : ((a.den : ℚ)) ≠ 0 := Nat.cast_ne_zero.mpr a.den_nz
  have hb : ((b.den : ℚ)) ≠ 0 := Nat.cast_ne_zero.mpr b.den_nz
  conv_rhs => rw [← Rat.num_div_den a, ← Rat.num_div_den b]
  push_cast
  field_simp
  ring

/-- C5: the signed amount equals the non-negative magnitude of the first
decimal token (after stripping `$` and `,`; zero when unparsable) when the
lower-cased amount-and-description context matches a top-up keyword or
contains "top", and minus that magnitude otherwise — so a top-up entry is
never negative and a charge with a nonzero magnitude is strictly negative;
in particular "Top up $20.00" yields +20.00 and "Trip fare $4.80"
yields -4.80. -/
theorem c5_amount_sign_classification (raw description : String) :
    (parseAmount raw description).1 =
      (if isTopUpText raw description then amountMagnitude raw else -amountMagnitude raw) ∧
    0 ≤ amountMagnitude raw ∧
    (isTopUpText raw description = true → 0 ≤ (parseAmount raw description).1) ∧
    (isTopUpText raw description = false → amountMagnitude raw ≠ 0 →
      (parseAmount raw description).1 < 0) ∧
    parseAmount "Top up $20.00" "" = (20, "AUD") ∧
    parseAmount "Trip fare $4.80" "" = (-(24 / 5 : ℚ), "AUD") := by
  have hmag : 0 ≤ amountMagnitude raw := ratAbs_nonneg _
  refine ⟨?_, hmag, ?_, ?_, by decide, ?_⟩
  · by_cases h : isTopUpText raw description <;> simp [parseAmount, h]
  · intro h; simp [parseAmount, h]; exact hmag
  · intro h hne
    simp only [parseAmount, h, if_false, Bool.false_eq_true]
    have hpos : 0 < amountMagnitude raw := lt_of_le_of_ne hmag (Ne.symm hne)
    linarith
  · have h1 : parseAmount "Trip fare $4.80" "" = (mkRat (-24) 5, "AUD") := by decide
    have h2 : (mkRat (-24) 5 : ℚ) = -(24 / 5 : ℚ) := by
      rw [Rat.mkRat_eq_divInt, Rat.divInt_eq_div]; norm_num
    rw [h1, h2]

/-- C5 witness: "Trip fare $4.80" is not a top-up and its signed amount is
strictly negative. -/
theorem c5_amount_sign_classification_witness :
    (parseAmount "Trip fare $4.80" "").1 < 0 :=
  (c5_amount_sign_classification "Trip fare $4.80" "").2.2.2.1 (by decide) (by decide)

/-- C10: every raw line item yields an emitted entry; an empty raw time text
yields `time_local = none` and `time_utc = none`, a non-empty one yields two
non-null timestamps, and the entry's timestamp fields are exactly what
`convertTimes` derives from the block's calendar date and the item's time
text. -/
theorem c10_nullable_timestamps :
    (∀ disable td pd acc rb items,
      (processItems disable td pd acc rb items).length = items.length) ∧
    (∀ pd, convertTimes pd "" = (none, none)) ∧
    (∀ pd t, t ≠ "" → ∃ a b, convertTimes pd t = (some a, some b)) ∧
    (∀ disable td pd acc rb it rest,
      (processItems disable td pd acc rb (it :: rest)).head?.map
        (fun en => (en.time_local, en.time_utc)) = some (convertTimes pd it.timeText)) := by
  refine ⟨?_, fun pd => rfl, ?_, ?_⟩
  · intro disable td pd acc rb items
    induction items generalizing rb with
    | nil => rfl
    | cons it rest ih => simp [processItems, ih]
  · intro pd t h
    simp only [convertTimes, if_neg h]
    split
    · split
      · exact ⟨_, _, rfl⟩
      · exact ⟨_, _, rfl⟩
    · split
      · split
        · exact ⟨_, _, rfl⟩
        · exact ⟨_, _, rfl⟩
      · exact ⟨_, _, rfl⟩
    · exact ⟨_, _, rfl⟩
  · intro disable td pd acc rb it rest
    simp [processItems]

/-- C10 witness: a concrete non-empty time text produces two non-null
timestamps. -/
theorem c10_nullable_timestamps_witness :
    ∃ a b, convertTimes ⟨15, 0, 2024⟩ "08:30" = (some a, some b) :=
  c10_nullable_timestamps.2.2.1 ⟨15, 0, 2024⟩ "08:30" (by decide)

/-- C3 counterexample: when the race resolves with neither success nor an
error element and the fallback URL check fails, the thrown error is named
`LoginFailed`, not `LoginTimeout`. -/
theorem c3_login_timeout_counterexample :
    (loginOutcome RaceResult.noSuccess "about:blank").result = Except.error "LoginFailed" ∧
      ("LoginFailed" : String) ≠ "LoginTimeout" :=
  ⟨rfl, by decide⟩

/-- C3 amended: for every login attempt in which neither bounded wait
resolves and the fallback check of the current URL does not show the
authenticated landing URL, the login fails with the error `LoginFailed`. -/
theorem c3_login_timeout_amended (res : RaceResult) (url : String)
    (hres : res = RaceResult.noSuccess ∨ res = RaceResult.noError)
    (hurl : strContains url landingUrlPart = false) :
    (loginOutcome res url).result = Except.error "LoginFailed" := by
  rcases hres with h | h <;> subst h <;> simp [loginOutcome, loginFallback, hurl]

/-- C3 witness: the timed-out race with a non-landing URL fails with
`LoginFailed`. -/
theorem c3_login_timeout_amended_witness :
    (loginOutcome RaceResult.noError "https://transportnsw.info/tickets").result =
      Except.error "LoginFailed" :=
  c3_login_timeout_amended RaceResult.noError "https://transportnsw.info/tickets"
    (Or.inr rfl) (by decide)

/-- C4 counterexample: an inline error text matching none of the keywords
("service unavailable") is still surfaced to the caller as
`InvalidCredentials`, not as a `LoginFailed` carrying the raw text. -/
theorem c4_login_error_text_counterexample :
    (loginOutcome (RaceResult.errorEl (some "service unavailable")) "x").result =
      Except.error "InvalidCredentials" ∧
    loginErrorKeyword ⟨toLowerL (jsTrimL "service unavailable".data)⟩ = false ∧
    (Except.error "InvalidCredentials" : Except String Unit) ≠ Except.error "LoginFailed" := by
  refine ⟨rfl, by decide, ?_⟩
  intro h
  injection h with h2
  exact absurd h2 (by decide)

/-- C4 amended: whenever the inline error element appears, the error thrown
to the caller is always `InvalidCredentials`; the case-insensitive keyword
set only selects the console message — "Invalid username or password" on a
keyword match, the raw text when it matches no keyword and is non-empty, and
"unknown error" when it is empty. -/
theorem c4_login_error_text_amended (t : Option String) (url : String) :
    (loginOutcome (RaceResult.errorEl t) url).result = Except.error "InvalidCredentials" ∧
    (loginErrorKeyword ⟨toLowerL (jsTrimL (t.getD "").data)⟩ = true →
      (loginOutcome (RaceResult.errorEl t) url).consoleMessage =
        "Login failed: Invalid username or password") ∧
    (loginErrorKeyword ⟨toLowerL (jsTrimL (t.getD "").data)⟩ = false →
      (⟨jsTrimL (t.getD "").data⟩ : String) ≠ "" →
      (loginOutcome (RaceResult.errorEl t) url).consoleMessage =
        "Login failed: " ++ (⟨jsTrimL (t.getD "").data⟩ : String)) ∧
    (loginErrorKeyword ⟨toLowerL (jsTrimL (t.getD "").data)⟩ = false →
      (⟨jsTrimL (t.getD "").data⟩ : String) = "" →
      (loginOutcome (RaceResult.errorEl t) url).consoleMessage =
        "Login failed: unknown error") := by
  by_cases hk : loginErrorKeyword ⟨toLowerL (jsTrimL (t.getD "").data)⟩ = true
  · exact ⟨by simp [loginOutcome, hk], fun _ => by simp [loginOutcome, hk],
      fun h => by rw [h] at hk; exact absurd hk (by decide),
      fun h => by rw [h] at hk; exact absurd hk (by decide)⟩
  · rw [Bool.not_eq_true] at hk
    by_cases he : (⟨jsTrimL (t.getD "").data⟩ : String) = ""
    · exact ⟨by simp [loginOutcome, hk, he],
        fun h => by rw [h] at hk; exact absurd hk (by decide),
        fun _ hne => absurd he hne, fun _ _ => by simp [loginOutcome, hk, he]⟩
    · exact ⟨by simp [loginOutcome, hk, he],
        fun h => by rw [h] at hk; exact absurd hk (by decide),
        fun _ _ => by simp [loginOutcome, hk, he], fun _ habs => absurd habs he⟩

/-- C4 witness: a non-keyword error text yields `InvalidCredentials` with
the raw text only on the console. -/
theorem c4_login_error_text_amended_witness :
    (loginOutcome (RaceResult.errorEl (some "service unavailable")) "x").result =
      Except.error "InvalidCredentials" ∧
    (loginOutcome (RaceResult.errorEl (some "service unavailable")) "x").consoleMessage =
      "Login failed: service unavailable" :=
  ⟨(c4_login_error_text_amended (some "service unavailable") "x").1,
    (c4_login_error_text_amended (some "service unavailable") "x").2.2.1 (by decide)
      (by decide)⟩

/-- C1 counterexample: with last observed balance 100.00, suppression off,
and two charge items of signed amounts -10.00 then -5.00 (descending time),
the stamped balances are "100.00" then "110.00" — the source subtracts the
signed amount (`runningBalance - quantity`), so the second (older) entry's
implied balance is 100 - (-10) = 110, not the 90.00 the claim states. -/
theorem c1_balance_anchoring_counterexample :
    (processItems false "01-15-2024" ⟨15, 0, 2024⟩ "card" (some 100)
      [⟨"", "Trip fare", "$10.00", none, "", ""⟩,
       ⟨"", "Trip fare", "$5.00", none, "", ""⟩]).map
        (fun e => e.quantity) = [mkRat (-10) 1, mkRat (-5) 1] ∧
    (processItems false "01-15-2024" ⟨15, 0, 2024⟩ "card" (some 100)
      [⟨"", "Trip fare", "$10.00", none, "", ""⟩,
       ⟨"", "Trip fare", "$5.00", none, "", ""⟩]).map
        (fun e => e.bankImportedBalance) = [some "100.00", some "110.00"] ∧
    ([some "100.00", some "110.00"] : List (Option String)) ≠
      [some "100.00", some "90.00"] := by
  refine ⟨by decide, by decide, by decide⟩

/-- C1 amended: with the suppression flag off and a known anchor balance,
each entry's `bankImportedBalance` is the running balance formatted to two
decimals, stamped before that entry's signed amount is subtracted from the
running balance; for anchor 100.00 and signed amounts -10.00 then -5.00 this
gives "100.00" then "110.00" (not "90.00"). -/
theorem c1_balance_anchoring_amended :
    (∀ td pd acc b items,
      (processItems false td pd acc (some b) items).map (fun e => e.bankImportedBalance) =
        balanceTrace b (items.map (fun it => (parseAmount it.amountText it.description).1))) ∧
    balanceTrace 100 [mkRat (-10) 1, mkRat (-5) 1] = [some "100.00", some "110.00"] := by
  refine ⟨?_, by decide⟩
  intro td pd acc b items
  induction items generalizing b with
  | nil => rfl
  | cons it rest ih => simp [processItems, balanceTrace, ih]

/-- C2 counterexample: with one discovered period (January 2024) and both
month-year bounds present (March 2024 to April 2024), no period falls in the
range and the iterated set is empty — it does not fall back to the full
discovered set.  (The source's fallback branch fires only when a bound pair
is absent, not when the in-range selection is empty.) -/
theorem c2_window_fallback_counterexample :
    (computeWindow [⟨"January 2024", none, 0, 2024⟩]
      (some ⟨2024, 3, 15⟩) (some ⟨2024, 4, 10⟩) ⟨2024, 10, 11⟩).startMY = some ⟨2, 2024⟩ ∧
    (computeWindow [⟨"January 2024", none, 0, 2024⟩]
      (some ⟨2024, 3, 15⟩) (some ⟨2024, 4, 10⟩) ⟨2024, 10, 11⟩).endMY = some ⟨3, 2024⟩ ∧
    (computeWindow [⟨"January 2024", none, 0, 2024⟩]
      (some ⟨2024, 3, 15⟩) (some ⟨2024, 4, 10⟩) ⟨2024, 10, 11⟩).monthsToUse = [] ∧
    ([⟨"January 2024", none, 0, 2024⟩] : List PeriodOpt) ≠ [] := by
  refine ⟨by decide, by decide, by decide, by decide⟩

/-- Membership in the iterated month set when the start pair is present. -/
theorem mem_cwMonthsToUse_of_some (mo : List PeriodOpt) (s0 e0 : Option CalDate)
    (today : CalDate) (sMY : MY) (hs : cwStartMY mo s0 = some sMY) (p : PeriodOpt) :
    p ∈ cwMonthsToUse mo s0 e0 today ↔
      p ∈ mo ∧ monthCmp sMY (periodMY p) ≤ 0 ∧
        monthCmp (periodMY p) (cwEndMY e0 today) ≤ 0 := by
  rw [cwMonthsToUse, hs]
  show p ∈ sortDescP ((cwMonthsParsed mo).filter fun m =>
    decide (monthCmp sMY (periodMY m) ≤ 0) &&
      decide (monthCmp (periodMY m) (cwEndMY e0 today) ≤ 0)) ↔ _
  rw [sortDescP, mem_sortByB, List.mem_filter, cwMonthsParsed, sortAscP, mem_sortByB]
  simp [Bool.and_eq_true, decide_eq_true_eq, and_assoc]

/-- Membership in the iterated month set when the start pair is absent. -/
theorem mem_cwMonthsToUse_of_none (mo : List PeriodOpt) (s0 e0 : Option CalDate)
    (today : CalDate) (hs : cwStartMY mo s0 = none) (p : PeriodOpt) :
    p ∈ cwMonthsToUse mo s0 e0 today ↔ p ∈ mo := by
  rw [cwMonthsToUse, hs]
  show p ∈ sortDescP (cwMonthsParsed mo) ↔ _
  rw [sortDescP, mem_sortByB, cwMonthsParsed, sortAscP, mem_sortByB]

/-- C2 amended: when both month-year bounds are present the iterated set is
exactly the discovered periods whose (year, month) lies in the inclusive
range — possibly empty; the fall-back to the full discovered set happens
exactly when the start pair is absent (no caller start and no discovered
period), the end pair being always present after defaulting. -/
theorem c2_window_fallback_amended (mo : List PeriodOpt) (s0 e0 : Option CalDate)
    (today : CalDate) :
    (∀ sMY eMY, (computeWindow mo s0 e0 today).startMY = some sMY →
      (computeWindow mo s0 e0 today).endMY = some eMY →
      ∀ p, p ∈ (computeWindow mo s0 e0 today).monthsToUse ↔
        p ∈ mo ∧ monthCmp sMY (periodMY p) ≤ 0 ∧ monthCmp (periodMY p) eMY ≤ 0) ∧
    ((computeWindow mo s0 e0 today).startMY = none →
      ∀ p, p ∈ (computeWindow mo s0 e0 today).monthsToUse ↔ p ∈ mo) := by
  constructor
  · intro sMY eMY hs he p
    simp only [computeWindow] at hs he ⊢
    rw [Option.some_inj] at he
    subst he
    exact mem_cwMonthsToUse_of_some mo s0 e0 today sMY hs p
  · intro hs p
    simp only [computeWindow] at hs ⊢
    exact mem_cwMonthsToUse_of_none mo s0 e0 today hs p

/-- C2 amended witness: with bounds January-2024 to February-2024 the
discovered January-2024 period is iterated. -/
theorem c2_window_fallback_amended_witness :
    (⟨"January 2024", none, 0, 2024⟩ : PeriodOpt) ∈
      (computeWindow [⟨"January 2024", none, 0, 2024⟩]
        (some ⟨2024, 1, 20⟩) (some ⟨2024, 2, 10⟩) ⟨2024, 10, 11⟩).monthsToUse :=
  ((c2_window_fallback_amended [⟨"January 2024", none, 0, 2024⟩]
      (some ⟨2024, 1, 20⟩) (some ⟨2024, 2, 10⟩) ⟨2024, 10, 11⟩).1
    ⟨0, 2024⟩ ⟨1, 2024⟩ (by decide) (by decide)
    ⟨"January 2024", none, 0, 2024⟩).mpr ⟨by decide, by decide, by decide⟩

/-- With the suppression flag set, no produced entry carries a balance. -/
theorem processItems_disabled_none (td : String) (pd : OpalDate) (acc : String) :
    ∀ (items : List RawItem) (rb : Option ℚ) (en : LedgerEntry),
      en ∈ processItems true td pd acc rb items → en.bankImportedBalance = none := by
  intro items
  induction items with
  | nil => intro rb en h; simp [processItems] at h
  | cons it rest ih =>
    intro rb en h
    simp only [processItems, List.mem_cons] at h
    rcases h with h | h
    · subst h; rfl
    · exact ih _ en h

/-- C7: whenever the effective (defaulted or caller-given) end date's Sydney
calendar day is strictly before today's, the window computation sets the
suppression flag, and every entry extracted under that flag has
`bankImportedBalance = none`. -/
theorem c7_implied_balance_suppression (mo : List PeriodOpt) (s0 e0 : Option CalDate)
    (today : CalDate) (td : String) (pd : OpalDate) (acc : String) (rb : Option ℚ)
    (items : List RawItem)
    (hend : dateLT (computeWindow mo s0 e0 today).endDate today = true) :
    ∀ en ∈ processItems (computeWindow mo s0 e0 today).disableBankImported td pd acc rb items,
      en.bankImportedBalance = none := by
  have hdis : (computeWindow mo s0 e0 today).disableBankImported = true := by
    simp only [computeWindow] at hend ⊢
    rw [cwDisable]
    exact hend
  rw [hdis]
  intro en hen
  exact processItems_disabled_none td pd acc items rb en hen

/-- C7 witness: a caller end date before today suppresses the balance stamp
on a concrete extracted entry. -/
theorem c7_implied_balance_suppression_witness :
    (⟨"01-01-2024", none, none, mkRat (-1) 1, "AUD", "card", none, "x", "", none,
      "posted", none⟩ : LedgerEntry).bankImportedBalance = none :=
  c7_implied_balance_suppression [] none (some ⟨2024, 1, 1⟩) ⟨2024, 6, 1⟩
    "01-01-2024" ⟨1, 0, 2024⟩ "card" (some 50) [⟨"", "x", "$1.00", none, "", ""⟩]
    (by decide) _ (by decide)

/-- C8: a caller start date strictly before the first day of the earliest
discovered period is clamped up to that first day, both in the effective
start date and in the start (month, year) pair used for period selection. -/
theorem c8_window_start_clamping (mo : List PeriodOpt) (s0 e0 : Option CalDate)
    (today : CalDate) (sd : CalDate) (p : PeriodOpt) (rest : List PeriodOpt)
    (hsort : cwMonthsParsed mo = p :: rest)
    (hs : s0 = some sd)
    (hlt : dateLT sd (firstDayOf p) = true) :
    (computeWindow mo s0 e0 today).startDate = some (firstDayOf p) ∧
    (computeWindow mo s0 e0 today).startMY = some (myOfDate (firstDayOf p)) := by
  subst hs
  have h1 : cwStartDate1 mo (some sd) = some sd := by
    rw [cwStartDate1]
    exact fun _ _ h _ => Option.noConfusion h
  have h2 : cwStartDate2 mo (some sd) = some (firstDayOf p) := by
    rw [cwStartDate2, h1, hsort]
    simp [hlt]
  have h3 : cwStartMY2 mo (some sd) = some (myOfDate (firstDayOf p)) := by
    rw [cwStartMY2, h2]
    rfl
  constructor
  · simp only [computeWindow]
    exact h2
  · simp only [computeWindow]
    rw [cwStartMY, h3, hsort]

/-- C8 witness: discovered earliest period March-2023 with caller start
January-15-2023 clamps the effective start to March-1-2023. -/
theorem c8_window_start_clamping_witness :
    (computeWindow [⟨"March 2023", none, 2, 2023⟩]
      (some ⟨2023, 1, 15⟩) none ⟨2023, 6, 1⟩).startDate =
        some (firstDayOf ⟨"March 2023", none, 2, 2023⟩) ∧
    (computeWindow [⟨"March 2023", none, 2, 2023⟩]
      (some ⟨2023, 1, 15⟩) none ⟨2023, 6, 1⟩).startMY =
        some (myOfDate (firstDayOf ⟨"March 2023", none, 2, 2023⟩)) :=
  c8_window_start_clamping [⟨"March 2023", none, 2, 2023⟩] (some ⟨2023, 1, 15⟩) none
    ⟨2023, 6, 1⟩ ⟨2023, 1, 15⟩ ⟨"March 2023", none, 2, 2023⟩ [] (by decide) rfl (by decide)
